import Mathlib

/-!
Verification of the chunked deposition-transcription scripts of this
repository: `process_depositions.py`, `process_depositions_eastus2.py` and
`retry_chunk4_only.py`.  The Python code is shallowly embedded: durations,
timestamps and token-usage figures become rationals and naturals, and every
external effect (the `ffprobe` probe, the `ffmpeg` segmentation runs, the
HTTP transcription requests, the directory scan) is modelled as an explicit
input describing the outcome of that effect.  Fallible code returns
`Except`.
-/

namespace Depositions

/-- Constant `MAX_DURATION_SECONDS = 1500` from `process_depositions.py`
(the model's 25-minute per-request ceiling). -/
def MAX_DURATION_SECONDS : ℚ := 1500

/-- Constant `CHUNK_DURATION_SECONDS = 1400` from `process_depositions.py`
(the nominal chunk length used for splitting). -/
def CHUNK_DURATION_SECONDS : ℚ := 1400

/-- Constant `MAX_RETRIES = 3` from `process_depositions.py`. -/
def MAX_RETRIES : ℕ := 3

/-! ### Duration prober

The `ffprobe` invocation is modelled as an `Except String ℚ` input: `ok d`
when the tool ran and its stdout parsed as the number `d`, `error e` when
the tool could not be invoked, exited non-zero (`check=True`), or printed
non-numeric output (`float(...)` raised). -/

/-- Embedding of `get_audio_duration` from `process_depositions.py`: the
`try` block returns the parsed duration; the blanket `except Exception`
handler prints a warning and returns `0`. -/
def get_audio_duration (probe : Except String ℚ) : ℚ :=
  match probe with
  | Except.ok d => d
  | Except.error _ => 0

/-- Embedding of `get_duration` from `process_depositions_eastus2.py`:
there is no handler, so a probe failure propagates to the caller. -/
def get_duration (probe : Except String ℚ) : Except String ℚ :=
  match probe with
  | Except.ok d => Except.ok d
  | Except.error e => Except.error e

/-! ### Chunk splitter -/

/-- One invocation of the external `ffmpeg` segmentation tool: input path,
start offset (`-ss`), nominal length (`-t`), output path.  The audio codec
is stream-copied (`-acodec copy`), which the embedding does not carry as
data since it is constant. -/
structure FfmpegCmd where
  input : String
  start : ℚ
  length : ℚ
  output : String
deriving Repr, DecidableEq

/-- Python's format spec `02d`: decimal, zero-padded to width two. -/
def zeroPad2 (n : ℕ) : String :=
  if n < 10 then "0" ++ toString n else toString n

/-- Output path for chunk number `n` built inside `split_audio` of
`process_depositions.py`: `chunks/<base>_chunk_<n zero-padded>.mp3`. -/
def chunkName (base : String) (n : ℕ) : String :=
  "chunks/" ++ base ++ "_chunk_" ++ zeroPad2 n ++ ".mp3"

/-- Embedding of `split_audio` from `process_depositions.py`.  The fast
path is guarded by `duration <= MAX_DURATION_SECONDS` (not by the
`chunk_duration` parameter).  Otherwise
`num_chunks = int(duration / chunk_duration + 1)` windows are cut, window
`i` starting at `i * chunk_duration` with nominal length `chunk_duration`.
`ok i` reports whether the `ffmpeg` run for window `i` exited with
code 0; a failed window is skipped (`continue`), producing no entry in the
returned chunk-file list.  The first component is the returned list of
chunk files, the second records every attempted `ffmpeg` invocation. -/
def split_audio (ok : ℕ → Bool) (audio_file base_name : String)
    (duration chunk_duration : ℚ) : List String × List FfmpegCmd :=
  if duration ≤ MAX_DURATION_SECONDS then ([audio_file], [])
  else
    let num_chunks := (⌊duration / chunk_duration + 1⌋).toNat
    let cmds := (List.range num_chunks).map fun i =>
      { input := audio_file, start := (i : ℚ) * chunk_duration,
        length := chunk_duration, output := chunkName base_name (i + 1) }
    let chunk_files := ((List.range num_chunks).filter fun i => ok i).map
      fun i => chunkName base_name (i + 1)
    (chunk_files, cmds)

/-- Output path for chunk number `n` built inside `split_audio` of
`process_depositions_eastus2.py`:
`chunks_5min_eastus2/<base>_chunk<n zero-padded>.mp3`. -/
def chunkNameE2 (base : String) (n : ℕ) : String :=
  "chunks_5min_eastus2/" ++ base ++ "_chunk" ++ zeroPad2 n ++ ".mp3"

/-- Embedding of `split_audio` from `process_depositions_eastus2.py`: the
fast path is guarded by `duration <= chunk_dur` itself, and every window's
filename is appended to the chunk list unconditionally (that variant never
checks the `ffmpeg` return code). -/
def split_audio_eastus2 (audio_file base : String)
    (duration chunk_dur : ℚ) : List String × List FfmpegCmd :=
  if duration ≤ chunk_dur then ([audio_file], [])
  else
    let num := (⌊duration / chunk_dur + 1⌋).toNat
    let cmds := (List.range num).map fun i =>
      { input := audio_file, start := (i : ℚ) * chunk_dur,
        length := chunk_dur, output := chunkNameE2 base (i + 1) }
    (cmds.map FfmpegCmd.output, cmds)

/-! ### Theorems for claims C1 and C2 -/

/-- Claim C2 counterexample: when the probe fails, `get_audio_duration`
from `process_depositions.py` does not propagate any error — its return
type has no error channel at all — it returns the fallback value `0`.
This falsifies the claim that a probe failure "fails with a ProbeError
that is propagated to the caller … no fallback value". -/
theorem get_audio_duration_fallback_cex :
    get_audio_duration (Except.error "ffprobe: command not found") = 0 := rfl

/-- Claim C2 (corrected): `get_audio_duration` in `process_depositions.py`
returns the probed duration on success but swallows every probe failure
and returns the fallback value `0`; only `get_duration` in
`process_depositions_eastus2.py` propagates the probe failure to the
caller unchanged. -/
theorem duration_prober_amended :
    (∀ d : ℚ, get_audio_duration (Except.ok d) = d) ∧
    (∀ e : String, get_audio_duration (Except.error e) = 0) ∧
    (∀ r : Except String ℚ, get_duration r = r) := by
  refine ⟨fun d => rfl, fun e => rfl, fun r => ?_⟩
  cases r <;> rfl

/-- Claim C1 counterexample: with the script's own default
`D = CHUNK_DURATION_SECONDS = 1400` and a source of duration
`T = 1450 > D`, the claim demands `N = ⌊1450 / 1400⌋ + 1 = 2` materialized
windows, but `split_audio` of `process_depositions.py` takes its fast path
(which is guarded by `MAX_DURATION_SECONDS = 1500`, not by `D`) and
returns the original file with no `ffmpeg` invocation at all. -/
theorem split_audio_claim_cex :
    CHUNK_DURATION_SECONDS < 1450 ∧
    ⌊(1450 : ℚ) / CHUNK_DURATION_SECONDS⌋ + 1 = 2 ∧
    split_audio (fun _ => true) "d.mp3" "d" 1450 CHUNK_DURATION_SECONDS =
      (["d.mp3"], []) := by
  refine ⟨by norm_num [CHUNK_DURATION_SECONDS], ?_, ?_⟩
  · have h : ⌊(1450 : ℚ) / CHUNK_DURATION_SECONDS⌋ = 1 := by
      rw [Int.floor_eq_iff]
      norm_num [CHUNK_DURATION_SECONDS]
    omega
  · unfold split_audio
    rw [if_pos (by norm_num [MAX_DURATION_SECONDS])]

/-- Claim C1 (amended): in `process_depositions.py` the fast path of
`split_audio` triggers when the source duration is at most
`MAX_DURATION_SECONDS = 1500` (not when it is at most `D`), returning the
original file with no sub-file materialized; when the duration exceeds
`1500`, it computes `N = ⌊duration / D⌋ + 1` windows, window `i` (0-based)
starting at `i × D` with nominal length `D` and a zero-padded chunk number
in its output filename, and (when every segmentation run succeeds) the
returned chunk files are exactly the outputs of those windows.  The
eastus2 variant behaves as the original claim states, with its fast-path
threshold equal to `D` itself. -/
theorem split_audio_amended (ok : ℕ → Bool) (af bn : String)
    (duration chunk_duration : ℚ) (hcd : 0 < chunk_duration) :
    (duration ≤ MAX_DURATION_SECONDS →
      split_audio ok af bn duration chunk_duration = ([af], [])) ∧
    (MAX_DURATION_SECONDS < duration → (∀ i, ok i = true) →
      ((⌊duration / chunk_duration⌋ + 1).toNat : ℤ) =
          ⌊duration / chunk_duration⌋ + 1 ∧
      (split_audio ok af bn duration chunk_duration).2 =
        (List.range (⌊duration / chunk_duration⌋ + 1).toNat).map (fun (i : ℕ) =>
          { input := af, start := (i : ℚ) * chunk_duration,
            length := chunk_duration, output := chunkName bn (i + 1) }) ∧
      (split_audio ok af bn duration chunk_duration).1 =
        ((split_audio ok af bn duration chunk_duration).2).map
          FfmpegCmd.output) ∧
    (duration ≤ chunk_duration →
      split_audio_eastus2 af bn duration chunk_duration = ([af], [])) ∧
    (chunk_duration < duration →
      ((⌊duration / chunk_duration⌋ + 1).toNat : ℤ) =
          ⌊duration / chunk_duration⌋ + 1 ∧
      split_audio_eastus2 af bn duration chunk_duration =
        (((List.range (⌊duration / chunk_duration⌋ + 1).toNat).map (fun (i : ℕ) =>
            ({ input := af, start := (i : ℚ) * chunk_duration,
               length := chunk_duration,
               output := chunkNameE2 bn (i + 1) } : FfmpegCmd))).map
          FfmpegCmd.output,
         (List.range (⌊duration / chunk_duration⌋ + 1).toNat).map (fun (i : ℕ) =>
          { input := af, start := (i : ℚ) * chunk_duration,
            length := chunk_duration, output := chunkNameE2 bn (i + 1) }))) := by
  have hfloor : ∀ h : 0 < duration,
      ((⌊duration / chunk_duration⌋ + 1).toNat : ℤ) =
        ⌊duration / chunk_duration⌋ + 1 := by
    intro h
    have hq : 0 ≤ duration / chunk_duration := le_of_lt (div_pos h hcd)
    have h0 : 0 ≤ ⌊duration / chunk_duration⌋ := Int.floor_nonneg.mpr hq
    omega
  refine ⟨?_, ?_, ?_, ?_⟩
  · intro hle
    unfold split_audio
    rw [if_pos hle]
  · intro hgt hok
    have hpos : 0 < duration := lt_trans (by norm_num [MAX_DURATION_SECONDS]) hgt
    refine ⟨hfloor hpos, ?_, ?_⟩
    · unfold split_audio
      rw [if_neg (not_le.mpr hgt), Int.floor_add_one]
    · unfold split_audio
      rw [if_neg (not_le.mpr hgt)]
      simp only [List.map_map]
      rw [List.filter_eq_self.mpr (fun a _ => hok a)]
      rfl
  · intro hle
    unfold split_audio_eastus2
    rw [if_pos hle]
  · intro hgt
    have hpos : 0 < duration := lt_trans hcd hgt
    refine ⟨hfloor hpos, ?_⟩
    unfold split_audio_eastus2
    rw [if_neg (not_le.mpr hgt), Int.floor_add_one]

/-- Concrete instance of the splitting branch of `split_audio_amended`:
a 3000-second source with `D = 1400` exceeds the 1500-second fast-path
threshold and is cut into `⌊3000 / 1400⌋ + 1 = 3` windows starting at
`i × 1400`, whose outputs are exactly the returned chunk files. -/
theorem split_audio_amended_witness :
    ((⌊(3000 : ℚ) / 1400⌋ + 1).toNat : ℤ) = ⌊(3000 : ℚ) / 1400⌋ + 1 ∧
    (split_audio (fun _ => true) "d.mp3" "d" 3000 1400).2 =
      (List.range (⌊(3000 : ℚ) / 1400⌋ + 1).toNat).map (fun (i : ℕ) =>
        { input := "d.mp3", start := (i : ℚ) * 1400, length := 1400,
          output := chunkName "d" (i + 1) }) ∧
    (split_audio (fun _ => true) "d.mp3" "d" 3000 1400).1 =
      ((split_audio (fun _ => true) "d.mp3" "d" 3000 1400).2).map
        FfmpegCmd.output :=
  (split_audio_amended (fun _ => true) "d.mp3" "d" 3000 1400
    (by norm_num)).2.1 (by norm_num [MAX_DURATION_SECONDS]) (fun _ => rfl)
/-! ### Transcription client and retry controller

One transcription attempt is modelled by a `client` function from the
attempt number to the outcome of that attempt's HTTP round trip.  Besides
the status code, each response carries whether its body parses as JSON,
since the scripts call `response.json()` on error paths too and a parse
failure there lands in the blanket exception handler. -/

/-- Outcome of one HTTP transcription attempt: either a response with a
status code, a flag telling whether the body parses as JSON, and a
payload tag (identifying the parsed body when it does parse), or a
transport-level exception. -/
inductive HttpResp where
  | resp (status : ℕ) (jsonOk : Bool) (payload : ℕ)
  | exc (msg : String)
deriving Repr, DecidableEq

/-- Terminal outcome of a retry loop: a successful payload, or exhaustion
(the Python code raising out of the function, or returning its failure
record). -/
inductive RetryOutcome where
  | success (payload : ℕ)
  | exhausted
deriving Repr, DecidableEq

/-- A response the claim calls a retryable failure: an HTTP 500 (with any
body), or a transport exception. -/
def retryableResp (r : HttpResp) : Prop :=
  (∃ b p, r = HttpResp.resp 500 b p) ∨ (∃ m, r = HttpResp.exc m)

/-- A response that makes the loop of `transcribe_audio_chunk` sleep and
continue: a retryable failure, or any non-500 response whose body does
not parse as JSON — for those, the `response.json()` call on the error
path (or the success-path `result = response.json()` at status 200)
raises and is caught by the blanket `except Exception` handler. -/
def retriedResp (r : HttpResp) : Prop :=
  retryableResp r ∨ (∃ st p, st ≠ 500 ∧ r = HttpResp.resp st false p)

/-- Body of the `for attempt in range(1, MAX_RETRIES + 1)` loop of
`transcribe_audio_chunk` in `process_depositions.py`.  `remaining` counts
the attempts still allowed after the current one, so the source's guard
`attempt < MAX_RETRIES` corresponds to `remaining > 0`.  Control flow of
one iteration:
- status 500: `error_data = response.json()` (a parse failure there goes
  to the blanket handler, with the same sleep-and-continue/re-raise
  outcome), then sleep and continue while budget remains, else
  `raise_for_status()` raises `HTTPError` which the `except HTTPError`
  arm re-raises;
- any other non-200 status: `json.dumps(response.json())` runs first, so
  a non-JSON body raises into the blanket handler (sleep and continue
  while budget remains, else re-raise); with a JSON body,
  `raise_for_status()` raises only for statuses 400-599, which the
  `except HTTPError` arm re-raises (immediate exhaustion); for any other
  status (2xx, 3xx, 600+) it is a no-op and execution falls through to
  the success parser, which succeeds on the already-parsed body;
- status 200: `result = response.json()` succeeds (success) or raises
  into the blanket handler;
- a transport exception goes to the blanket handler.
Returns the outcome, the number of HTTP requests made, and the number of
`time.sleep` calls. -/
def retryLoop (client : ℕ → HttpResp) : ℕ → ℕ → RetryOutcome × ℕ × ℕ
  | attempt, remaining =>
    match client attempt with
    | HttpResp.resp status jsonOk payload =>
      if status = 500 then
        match remaining with
        | 0 => (RetryOutcome.exhausted, 1, 0)
        | r + 1 =>
          let rest := retryLoop client (attempt + 1) r
          (rest.1, rest.2.1 + 1, rest.2.2 + 1)
      else if status ≠ 200 then
        if jsonOk then
          if 400 ≤ status ∧ status ≤ 599 then (RetryOutcome.exhausted, 1, 0)
          else (RetryOutcome.success payload, 1, 0)
        else
          match remaining with
          | 0 => (RetryOutcome.exhausted, 1, 0)
          | r + 1 =>
            let rest := retryLoop client (attempt + 1) r
            (rest.1, rest.2.1 + 1, rest.2.2 + 1)
      else
        if jsonOk then (RetryOutcome.success payload, 1, 0)
        else
          match remaining with
          | 0 => (RetryOutcome.exhausted, 1, 0)
          | r + 1 =>
            let rest := retryLoop client (attempt + 1) r
            (rest.1, rest.2.1 + 1, rest.2.2 + 1)
    | HttpResp.exc _ =>
      match remaining with
      | 0 => (RetryOutcome.exhausted, 1, 0)
      | r + 1 =>
        let rest := retryLoop client (attempt + 1) r
        (rest.1, rest.2.1 + 1, rest.2.2 + 1)

/-- Embedding of `transcribe_audio_chunk` from `process_depositions.py`,
restricted to its retry control flow: the loop starts at attempt 1 with
`max_retries - 1` further attempts allowed; with a zero budget the loop
body never runs and the trailing `raise` reports exhaustion after zero
requests. -/
def transcribe_audio_chunk (client : ℕ → HttpResp) (max_retries : ℕ) :
    RetryOutcome × ℕ × ℕ :=
  match max_retries with
  | 0 => (RetryOutcome.exhausted, 0, 0)
  | m + 1 => retryLoop client 1 m

/-- Embedding of `transcribe_chunk` from `retry_chunk4_only.py`, written
in the source as a function that re-invokes itself with `attempt + 1`
after sleeping.  Its classification differs from
`transcribe_audio_chunk`: a 200 parses the body (success, or blanket
handler and retry on a non-JSON body); a 500 sleeps and recurses while
`attempt < MAX_RETRIES`, else returns a failure record (built from
`response.json()`, whose parse failure lands in the same
attempt-exhausted arm of the handler); and any other status returns a
failure record immediately, built from `response.text`, which never
raises — so every non-200, non-500 status is terminal there. -/
def transcribe_chunk (client : ℕ → HttpResp) : ℕ → ℕ → RetryOutcome × ℕ × ℕ
  | attempt, remaining =>
    match client attempt with
    | HttpResp.resp status jsonOk payload =>
      if status = 200 then
        if jsonOk then (RetryOutcome.success payload, 1, 0)
        else
          match remaining with
          | 0 => (RetryOutcome.exhausted, 1, 0)
          | r + 1 =>
            let rest := transcribe_chunk client (attempt + 1) r
            (rest.1, rest.2.1 + 1, rest.2.2 + 1)
      else if status = 500 then
        match remaining with
        | 0 => (RetryOutcome.exhausted, 1, 0)
        | r + 1 =>
          let rest := transcribe_chunk client (attempt + 1) r
          (rest.1, rest.2.1 + 1, rest.2.2 + 1)
      else (RetryOutcome.exhausted, 1, 0)
    | HttpResp.exc _ =>
      match remaining with
      | 0 => (RetryOutcome.exhausted, 1, 0)
      | r + 1 =>
        let rest := transcribe_chunk client (attempt + 1) r
        (rest.1, rest.2.1 + 1, rest.2.2 + 1)

/-- Entry into `transcribe_chunk` as `main` of `retry_chunk4_only.py`
performs it: first call at attempt 1, so `max_retries - 1` further
attempts are allowed. -/
def transcribe_chunk_run (client : ℕ → HttpResp) (max_retries : ℕ) :
    RetryOutcome × ℕ × ℕ :=
  transcribe_chunk client 1 (max_retries - 1)

theorem retryLoop_all_retried (client : ℕ → HttpResp)
    (h : ∀ a, retriedResp (client a)) :
    ∀ remaining attempt,
      retryLoop client attempt remaining =
        (RetryOutcome.exhausted, remaining + 1, remaining) := by
  intro remaining
  induction remaining with
  | zero =>
    intro attempt
    rcases h attempt with (⟨b, p, hp⟩ | ⟨msg, hm⟩) | ⟨st, p, hst, hp⟩
    · simp [retryLoop, hp]
    · simp [retryLoop, hm]
    · by_cases h200 : st = 200
      · subst h200
        simp [retryLoop, hp, hst]
      · simp [retryLoop, hp, hst, h200]
  | succ r ih =>
    intro attempt
    rcases h attempt with (⟨b, p, hp⟩ | ⟨msg, hm⟩) | ⟨st, p, hst, hp⟩
    · simp [retryLoop, hp, ih (attempt + 1)]
    · simp [retryLoop, hm, ih (attempt + 1)]
    · by_cases h200 : st = 200
      · subst h200
        simp [retryLoop, hp, hst, ih (attempt + 1)]
      · simp [retryLoop, hp, hst, h200, ih (attempt + 1)]

theorem transcribe_chunk_all_retryable (client : ℕ → HttpResp)
    (h : ∀ a, retryableResp (client a)) :
    ∀ remaining attempt,
      transcribe_chunk client attempt remaining =
        (RetryOutcome.exhausted, remaining + 1, remaining) := by
  intro remaining
  induction remaining with
  | zero =>
    intro attempt
    rcases h attempt with ⟨b, p, hp⟩ | ⟨msg, hm⟩
    · simp [transcribe_chunk, hp]
    · simp [transcribe_chunk, hm]
  | succ r ih =>
    intro attempt
    rcases h attempt with ⟨b, p, hp⟩ | ⟨msg, hm⟩
    · simp [transcribe_chunk, hp, ih (attempt + 1)]
    · simp [transcribe_chunk, hm, ih (attempt + 1)]

/-- Claim C3 counterexample: the claim's terminal branch — "any non-200
status other than 500 gives exactly 1 call and Exhausted" — is false of
`transcribe_audio_chunk`: a 201 response with a JSON body passes
`raise_for_status()` (which raises only for 400-599) and falls through to
the success parser, returning Success after 1 call; and a 204 response
with a body that does not parse as JSON raises inside the error-printing
`response.json()` call, lands in the blanket exception handler, and is
retried until the budget of 3 is exhausted (3 calls), not stopped after
1. -/
theorem retry_terminal_claim_cex :
    (201 : ℕ) ≠ 200 ∧ (201 : ℕ) ≠ 500 ∧
    transcribe_audio_chunk (fun _ => HttpResp.resp 201 true 7) 3 =
      (RetryOutcome.success 7, 1, 0) ∧
    (204 : ℕ) ≠ 200 ∧ (204 : ℕ) ≠ 500 ∧
    transcribe_audio_chunk (fun _ => HttpResp.resp 204 false 0) 3 =
      (RetryOutcome.exhausted, 3, 2) := by decide

/-- Claim C3 (amended): for every retry budget `max_retries ≥ 1`, a
client whose every attempt yields a retryable failure (HTTP 500 or a
transport exception) is invoked exactly `max_retries` times with
`max_retries - 1` sleeps before exhaustion, in both scripts.  For the
terminal side, in `process_depositions.py` a status in 400-599 other
than 500 with a JSON body is terminal — exactly 1 call, no sleep,
immediate exhaustion; a non-200 status outside 400-599 with a JSON body
falls through `raise_for_status()` and returns Success after 1 call; and
a non-500 response whose body is not JSON is retried like a transient
failure, exhausting the whole budget.  In `retry_chunk4_only.py` every
non-200, non-500 status is terminal after exactly 1 call, as the
original claim stated. -/
theorem retry_termination_amended
    (clientR clientT clientF clientJ : ℕ → HttpResp)
    (max_retries : ℕ) (h1 : 1 ≤ max_retries)
    (hR : ∀ a, retryableResp (clientR a))
    (stT pT : ℕ) (hT400 : 400 ≤ stT) (hT599 : stT ≤ 599) (hT500 : stT ≠ 500)
    (hT : clientT 1 = HttpResp.resp stT true pT)
    (stF pF : ℕ) (hF500 : stF ≠ 500) (hF200 : stF ≠ 200)
    (hFrange : ¬(400 ≤ stF ∧ stF ≤ 599))
    (hF : clientF 1 = HttpResp.resp stF true pF)
    (stJ pJ : ℕ) (hJ500 : stJ ≠ 500) (hJ200 : stJ ≠ 200)
    (hJ : ∀ a, clientJ a = HttpResp.resp stJ false pJ) :
    transcribe_audio_chunk clientR max_retries =
      (RetryOutcome.exhausted, max_retries, max_retries - 1) ∧
    transcribe_chunk_run clientR max_retries =
      (RetryOutcome.exhausted, max_retries, max_retries - 1) ∧
    transcribe_audio_chunk clientT max_retries =
      (RetryOutcome.exhausted, 1, 0) ∧
    transcribe_chunk_run clientT max_retries =
      (RetryOutcome.exhausted, 1, 0) ∧
    transcribe_audio_chunk clientF max_retries =
      (RetryOutcome.success pF, 1, 0) ∧
    transcribe_chunk_run clientF max_retries =
      (RetryOutcome.exhausted, 1, 0) ∧
    transcribe_audio_chunk clientJ max_retries =
      (RetryOutcome.exhausted, max_retries, max_retries - 1) ∧
    transcribe_chunk_run clientJ max_retries =
      (RetryOutcome.exhausted, 1, 0) := by
  obtain ⟨m, rfl⟩ : ∃ m, max_retries = m + 1 :=
    ⟨max_retries - 1, by omega⟩
  have hT200 : stT ≠ 200 := by omega
  refine ⟨?_, ?_, ?_, ?_, ?_, ?_, ?_, ?_⟩
  · show retryLoop clientR 1 m = _
    simp only [Nat.add_sub_cancel]
    exact retryLoop_all_retried clientR (fun a => Or.inl (hR a)) m 1
  · show transcribe_chunk clientR 1 (m + 1 - 1) = _
    simp only [Nat.add_sub_cancel]
    exact transcribe_chunk_all_retryable clientR hR m 1
  · show retryLoop clientT 1 m = _
    cases m with
    | zero => simp [retryLoop, hT, hT500, hT200, hT400, hT599]
    | succ r => simp [retryLoop, hT, hT500, hT200, hT400, hT599]
  · show transcribe_chunk clientT 1 (m + 1 - 1) = _
    simp only [Nat.add_sub_cancel]
    cases m with
    | zero => simp [transcribe_chunk, hT, hT200, hT500]
    | succ r => simp [transcribe_chunk, hT, hT200, hT500]
  · show retryLoop clientF 1 m = _
    cases m with
    | zero => simp [retryLoop, hF, hF500, hF200, hFrange]
    | succ r => simp [retryLoop, hF, hF500, hF200, hFrange]
  · show transcribe_chunk clientF 1 (m + 1 - 1) = _
    simp only [Nat.add_sub_cancel]
    cases m with
    | zero => simp [transcribe_chunk, hF, hF200, hF500]
    | succ r => simp [transcribe_chunk, hF, hF200, hF500]
  · show retryLoop clientJ 1 m = _
    simp only [Nat.add_sub_cancel]
    exact retryLoop_all_retried clientJ
      (fun a => Or.inr ⟨stJ, pJ, hJ500, hJ a⟩) m 1
  · show transcribe_chunk clientJ 1 (m + 1 - 1) = _
    simp only [Nat.add_sub_cancel]
    cases m with
    | zero => simp [transcribe_chunk, hJ 1, hJ200, hJ500]
    | succ r => simp [transcribe_chunk, hJ 1, hJ200, hJ500]

/-- Concrete instance of `retry_termination_amended` with budget 3: an
always-500 client is called 3 times with 2 sleeps; a 400-with-JSON-body
client once with no sleep; a 201-with-JSON-body client succeeds after
one call in `process_depositions.py` but is terminal in
`retry_chunk4_only.py`; and a 204-without-JSON-body client is retried 3
times in `process_depositions.py` but is terminal after one call in
`retry_chunk4_only.py`. -/
theorem retry_termination_amended_witness :
    transcribe_audio_chunk (fun _ => HttpResp.resp 500 true 0) 3 =
      (RetryOutcome.exhausted, 3, 2) ∧
    transcribe_chunk_run (fun _ => HttpResp.resp 500 true 0) 3 =
      (RetryOutcome.exhausted, 3, 2) ∧
    transcribe_audio_chunk (fun _ => HttpResp.resp 400 true 0) 3 =
      (RetryOutcome.exhausted, 1, 0) ∧
    transcribe_chunk_run (fun _ => HttpResp.resp 400 true 0) 3 =
      (RetryOutcome.exhausted, 1, 0) ∧
    transcribe_audio_chunk (fun _ => HttpResp.resp 201 true 7) 3 =
      (RetryOutcome.success 7, 1, 0) ∧
    transcribe_chunk_run (fun _ => HttpResp.resp 201 true 7) 3 =
      (RetryOutcome.exhausted, 1, 0) ∧
    transcribe_audio_chunk (fun _ => HttpResp.resp 204 false 0) 3 =
      (RetryOutcome.exhausted, 3, 2) ∧
    transcribe_chunk_run (fun _ => HttpResp.resp 204 false 0) 3 =
      (RetryOutcome.exhausted, 1, 0) :=
  retry_termination_amended
    (fun _ => HttpResp.resp 500 true 0) (fun _ => HttpResp.resp 400 true 0)
    (fun _ => HttpResp.resp 201 true 7) (fun _ => HttpResp.resp 204 false 0)
    3 (by norm_num) (fun _ => Or.inl ⟨true, 0, rfl⟩)
    400 0 (by norm_num) (by norm_num) (by norm_num) rfl
    201 7 (by norm_num) (by norm_num) (by norm_num) rfl
    204 0 (by norm_num) (by norm_num) (fun _ => rfl)

/-! ### Result merger -/

/-- Token-usage counters extracted from one transcription response. -/
structure Usage where
  total_tokens : ℕ
  input_tokens : ℕ
  output_tokens : ℕ
  audio_tokens : ℕ
  text_tokens : ℕ
deriving Repr, DecidableEq

/-- One diarized segment of a transcription response.  `stop` models the
JSON field `end` (a Lean keyword); `extra` holds every remaining key/value
pair of the segment object, which `dict.copy()` carries over untouched. -/
structure Segment where
  id : String
  start : ℚ
  stop : ℚ
  text : String
  speaker : String
  extra : List (String × String)
deriving Repr, DecidableEq

/-- Payload of one successful transcription response (the value stored
under the `result` key of a chunk record). -/
structure TranscriptionResult where
  text : String
  segments : List Segment
  usage : Usage
deriving Repr, DecidableEq

/-- The per-chunk record built by `transcribe_audio_chunk` on success:
response payload, wall-clock duration of the accepted attempt, ISO
timestamp of the attempt start, chunk number, and extracted usage. -/
structure ChunkResult where
  result : TranscriptionResult
  duration_seconds : ℚ
  timestamp : String
  chunk_number : ℕ
  usage : Usage
deriving Repr, DecidableEq

/-- The job-level record built by the multi-chunk branch of
`merge_transcriptions`. -/
structure MergedOutput where
  result : TranscriptionResult
  duration_seconds : ℚ
  timestamp : String
  usage : Usage
  chunks_processed : ℕ
deriving Repr, DecidableEq

/-- Return value of `merge_transcriptions`: the single-element fast path
returns the chunk record itself, the general path returns a merged
record (in Python both are plain dicts of different shapes). -/
inductive MergeResult where
  | single (c : ChunkResult)
  | merged (m : MergedOutput)
deriving Repr, DecidableEq

/-- Inner loop body of `merge_transcriptions`: `segment.copy()` followed
by rebasing `start`/`end` by `time_offset` and assigning the identifier
`"seg_" + str(count + 1)`, where `count` is `len(all_segments)` at the
moment of the append. -/
def adjustSegment (time_offset : ℚ) (count : ℕ) (s : Segment) : Segment :=
  { s with start := s.start + time_offset, stop := s.stop + time_offset,
           id := "seg_" ++ toString (count + 1) }

/-- Segments of one chunk, rebased by `time_offset`, identifiers
continuing from `count`. -/
def adjustChunk (time_offset : ℚ) : List Segment → ℕ → List Segment
  | [], _ => []
  | s :: rest, count =>
    adjustSegment time_offset count s :: adjustChunk time_offset rest (count + 1)

/-- Outer loop of `merge_transcriptions` over the chunks' segment lists:
`time_offset` starts at 0 and advances by the nominal `chunk_duration`
after each chunk (never by a measured duration); `count` tracks
`len(all_segments)`. -/
def mergeSegments (chunk_duration : ℚ) :
    List (List Segment) → ℚ → ℕ → List Segment
  | [], _, _ => []
  | cs :: rest, time_offset, count =>
    adjustChunk time_offset cs count ++
      mergeSegments chunk_duration rest (time_offset + chunk_duration)
        (count + cs.length)

/-- Field-wise usage sums `sum(c["usage"][k] for c in chunk_results)`. -/
def total_usage (chunk_results : List ChunkResult) : Usage :=
  { total_tokens := (chunk_results.map fun c => c.usage.total_tokens).sum,
    input_tokens := (chunk_results.map fun c => c.usage.input_tokens).sum,
    output_tokens := (chunk_results.map fun c => c.usage.output_tokens).sum,
    audio_tokens := (chunk_results.map fun c => c.usage.audio_tokens).sum,
    text_tokens := (chunk_results.map fun c => c.usage.text_tokens).sum }

/-- The chunk texts, in order. -/
def chunkTexts (chunk_results : List ChunkResult) : List String :=
  chunk_results.map fun c => c.result.text

/-- The per-chunk segment lists, in order. -/
def segLists (chunk_results : List ChunkResult) : List (List Segment) :=
  chunk_results.map fun c => c.result.segments

/-- Embedding of `merge_transcriptions` from `process_depositions.py`.
A one-element list is returned unchanged.  Otherwise the texts are joined
with a single space, the segments are rebased and renumbered by
`mergeSegments`, usage counters and processing durations are summed, and
the record is assembled; with an empty input the expression
`chunk_results[0]["timestamp"]` raises `IndexError`. -/
def merge_transcriptions (chunk_results : List ChunkResult)
    (chunk_duration : ℚ) : Except String MergeResult :=
  match chunk_results with
  | [c] => Except.ok (MergeResult.single c)
  | [] => Except.error "IndexError"
  | c0 :: c1 :: rest =>
    let crs := c0 :: c1 :: rest
    Except.ok (MergeResult.merged
      { result :=
          { text := String.intercalate " " (chunkTexts crs),
            segments := mergeSegments chunk_duration (segLists crs) 0 0,
            usage := total_usage crs },
        duration_seconds := (crs.map fun c => c.duration_seconds).sum,
        timestamp := c0.timestamp,
        usage := total_usage crs,
        chunks_processed := crs.length })

/-- Number of merged segments contributed by the chunks preceding chunk
`i` (0-based) — the global position at which chunk `i`'s segments begin. -/
def segPos (chunk_results : List ChunkResult) (i : ℕ) : ℕ :=
  (((segLists chunk_results).take i).map List.length).sum

/-! ### Helper lemmas about the merged segment list -/

theorem adjustChunk_length (off : ℚ) (cs : List Segment) (n : ℕ) :
    (adjustChunk off cs n).length = cs.length := by
  induction cs generalizing n with
  | nil => rfl
  | cons s rest ih => simp [adjustChunk, ih]

theorem adjustChunk_getElem? (off : ℚ) (cs : List Segment) (n j : ℕ)
    (s : Segment) (hj : cs[j]? = some s) :
    (adjustChunk off cs n)[j]? = some (adjustSegment off (n + j) s) := by
  induction cs generalizing n j with
  | nil => simp at hj
  | cons a rest ih =>
    cases j with
    | zero =>
      simp only [List.getElem?_cons_zero, Option.some.injEq] at hj
      subst hj
      simp [adjustChunk]
    | succ j' =>
      simp only [List.getElem?_cons_succ] at hj
      have := ih (n + 1) j' hj
      simpa [adjustChunk, Nat.add_right_comm n 1 j', Nat.add_assoc] using this

theorem adjustChunk_map_id (off : ℚ) (cs : List Segment) (n : ℕ) :
    (adjustChunk off cs n).map Segment.id =
      (List.range' (n + 1) cs.length).map (fun k => "seg_" ++ toString k) := by
  induction cs generalizing n with
  | nil => rfl
  | cons a rest ih =>
    simp only [adjustChunk, List.map_cons, List.length_cons, List.range'_succ]
    exact congrArg (("seg_" ++ toString (n + 1)) :: ·) (ih (n + 1))

theorem mergeSegments_length (D : ℚ) (chunks : List (List Segment))
    (off : ℚ) (n : ℕ) :
    (mergeSegments D chunks off n).length = (chunks.map List.length).sum := by
  induction chunks generalizing off n with
  | nil => rfl
  | cons cs rest ih => simp [mergeSegments, adjustChunk_length, ih]

theorem mergeSegments_getElem? (D : ℚ) (chunks : List (List Segment))
    (off : ℚ) (n : ℕ) (i j : ℕ) (cs : List Segment) (s : Segment)
    (hi : chunks[i]? = some cs) (hj : cs[j]? = some s) :
    (mergeSegments D chunks off n)[((chunks.take i).map List.length).sum + j]? =
      some (adjustSegment (off + i * D)
        (n + ((chunks.take i).map List.length).sum + j) s) := by
  induction chunks generalizing off n i with
  | nil => simp at hi
  | cons c0 rest ih =>
    cases i with
    | zero =>
      simp only [List.getElem?_cons_zero, Option.some.injEq] at hi
      subst hi
      have hjlt : j < c0.length := by
        rcases List.getElem?_eq_some_iff.mp hj with ⟨h, _⟩
        exact h
      simp only [List.take_zero, List.map_nil, List.sum_nil, Nat.zero_add,
        Nat.add_zero, mergeSegments]
      rw [List.getElem?_append_left (by rw [adjustChunk_length]; exact hjlt)]
      rw [adjustChunk_getElem? off c0 n j s hj]
      norm_num
    | succ i' =>
      simp only [List.getElem?_cons_succ] at hi
      simp only [List.take_succ_cons, List.map_cons, List.sum_cons,
        mergeSegments]
      rw [List.getElem?_append_right
        (by rw [adjustChunk_length]; omega)]
      rw [adjustChunk_length]
      have harith : c0.length + ((rest.take i').map List.length).sum + j
          - c0.length = ((rest.take i').map List.length).sum + j := by omega
      rw [harith]
      rw [ih (off + D) (n + c0.length) i' hi]
      congr 2
      · push_cast
        ring
      · omega

theorem mergeSegments_map_id (D : ℚ) (chunks : List (List Segment))
    (off : ℚ) (n : ℕ) :
    (mergeSegments D chunks off n).map Segment.id =
      (List.range' (n + 1) ((chunks.map List.length).sum)).map
        (fun k => "seg_" ++ toString k) := by
  induction chunks generalizing off n with
  | nil => rfl
  | cons cs rest ih =>
    simp only [mergeSegments, List.map_append, adjustChunk_map_id, ih,
      List.map_cons, List.sum_cons]
    rw [← List.map_append]
    congr 1
    have : n + cs.length + 1 = (n + 1) + cs.length := by omega
    rw [this, List.range'_append_1]
    congr 1
    omega

/-! ### Batch entry point -/

/-- The `success` flag of the row `process_all_depositions` appends for
one audio file: `process_deposition` either returns normally (success
row) or raises (failure row recording the error). -/
def fileRow (outcome : Except String Unit) : Bool :=
  match outcome with
  | Except.ok _ => true
  | Except.error _ => false

/-- Embedding of `process_all_depositions` from `process_depositions.py`:
the directory scan may raise (`FileNotFoundError` when the directory or
any MP3 file is missing), which propagates; otherwise every file yields
one row whose flag records whether processing that file raised. -/
def process_all_depositions
    (scan : Except String (List (Except String Unit))) :
    Except String (List Bool) :=
  match scan with
  | Except.error e => Except.error e
  | Except.ok files => Except.ok (files.map fileRow)

/-- Embedding of `main` from `process_depositions.py`: return 1 when the
`ffmpeg`/`ffprobe` prerequisite checks fail, 1 when
`process_all_depositions` raises (caught by the outer handler), and
otherwise `0 if any(r.get('success') for r in results) else 1`. -/
def mainExitCode (ffmpeg_ok ffprobe_ok : Bool)
    (scan : Except String (List (Except String Unit))) : ℕ :=
  if ffmpeg_ok && ffprobe_ok then
    match process_all_depositions scan with
    | Except.error _ => 1
    | Except.ok results => if results.any (fun b => b) then 0 else 1
  else 1

/-! ### Sample data used by the witnesses -/

/-- Sample usage record for chunk 1. -/
def sampleUsage1 : Usage := ⟨100, 60, 40, 50, 10⟩

/-- Sample usage record for chunk 2. -/
def sampleUsage2 : Usage := ⟨200, 120, 80, 90, 30⟩

/-- First segment of the first sample chunk. -/
def sampleSeg11 : Segment := ⟨"seg_1", 0, 5, "hello", "A", [("language", "en")]⟩

/-- Second segment of the first sample chunk. -/
def sampleSeg12 : Segment := ⟨"seg_2", 5, 9, "there", "B", []⟩

/-- Single segment of the second sample chunk. -/
def sampleSeg21 : Segment := ⟨"seg_1", 10, 20, "general", "B", []⟩

/-- First sample chunk result. -/
def sampleChunk1 : ChunkResult :=
  { result := { text := "hello there", segments := [sampleSeg11, sampleSeg12],
                usage := sampleUsage1 },
    duration_seconds := 12, timestamp := "2025-01-01T00:00:00",
    chunk_number := 1, usage := sampleUsage1 }

/-- Second sample chunk result. -/
def sampleChunk2 : ChunkResult :=
  { result := { text := "general kenobi", segments := [sampleSeg21],
                usage := sampleUsage2 },
    duration_seconds := 8, timestamp := "2025-01-01T00:05:00",
    chunk_number := 2, usage := sampleUsage2 }

/-! ### Theorems for claims C4 through C10 -/

/-- Claim C4 (confirmed): when `merge_transcriptions` merges `k ≥ 2`
chunk results with nominal chunk duration `D`, the merged copy of segment
`j` of chunk `i` (0-based here, so chunk `i + 1` in the claim's 1-based
numbering) sits at global position `segPos crs i + j` and has `start` and
`end` equal to the chunk-local values plus `i × D` exactly — the offset
advances by the nominal `D` per chunk, never by a measured duration. -/
theorem merge_offset_correct (crs : List ChunkResult) (D : ℚ)
    (h2 : 2 ≤ crs.length) (i j : ℕ) (ci : ChunkResult) (s : Segment)
    (hi : crs[i]? = some ci) (hj : ci.result.segments[j]? = some s) :
    ∃ m t, merge_transcriptions crs D = Except.ok (MergeResult.merged m) ∧
      m.result.segments[segPos crs i + j]? = some t ∧
      t.start = s.start + i * D ∧ t.stop = s.stop + i * D := by
  rcases crs with _ | ⟨c0, _ | ⟨c1, rest⟩⟩
  · simp at h2
  · simp at h2
  · have hseg : (segLists (c0 :: c1 :: rest))[i]? =
        some ci.result.segments := by
      simp only [segLists, List.getElem?_map, hi, Option.map_some']
    have H := mergeSegments_getElem? D (segLists (c0 :: c1 :: rest)) 0 0 i j
      ci.result.segments s hseg hj
    refine ⟨_, adjustSegment (0 + i * D)
      (0 + ((((segLists (c0 :: c1 :: rest)).take i).map List.length).sum) + j)
      s, rfl, ?_, ?_, ?_⟩
    · simpa [segPos] using H
    · simp [adjustSegment]
    · simp [adjustSegment]

/-- Concrete instance of `merge_offset_correct`: two chunks, the single
segment of chunk 2 (local `start = 10`, `end = 20`) lands at global
position 2 with both offsets rebased by `1 × 1400`. -/
theorem merge_offset_correct_witness :
    ∃ m t, merge_transcriptions [sampleChunk1, sampleChunk2] 1400 =
        Except.ok (MergeResult.merged m) ∧
      m.result.segments[segPos [sampleChunk1, sampleChunk2] 1 + 0]? = some t ∧
      t.start = sampleSeg21.start + ((1 : ℕ) : ℚ) * 1400 ∧
      t.stop = sampleSeg21.stop + ((1 : ℕ) : ℚ) * 1400 :=
  merge_offset_correct [sampleChunk1, sampleChunk2] 1400 (by norm_num)
    1 0 sampleChunk2 sampleSeg21 rfl rfl

/-- Claim C5 (confirmed): when `merge_transcriptions` merges `k ≥ 2`
chunk results whose segment counts sum to `N`, the merged identifiers are
exactly `seg_1 … seg_N` in emission order (chunk order, then within-chunk
order) — the list of merged identifiers equals the image of `1 … N`, so
there are no gaps and no duplicates. -/
theorem merge_renumbering (crs : List ChunkResult) (D : ℚ)
    (h2 : 2 ≤ crs.length) :
    ∃ m, merge_transcriptions crs D = Except.ok (MergeResult.merged m) ∧
      m.result.segments.map Segment.id =
        (List.range' 1 (((segLists crs).map List.length).sum)).map
          (fun k => "seg_" ++ toString k) := by
  rcases crs with _ | ⟨c0, _ | ⟨c1, rest⟩⟩
  · simp at h2
  · simp at h2
  · refine ⟨_, rfl, ?_⟩
    simpa using mergeSegments_map_id D (segLists (c0 :: c1 :: rest)) 0 0

/-- Concrete instance of `merge_renumbering`: three segments across two
chunks are renumbered `seg_1, seg_2, seg_3`. -/
theorem merge_renumbering_witness :
    ∃ m, merge_transcriptions [sampleChunk1, sampleChunk2] 1400 =
        Except.ok (MergeResult.merged m) ∧
      m.result.segments.map Segment.id =
        (List.range' 1
          (((segLists [sampleChunk1, sampleChunk2]).map List.length).sum)).map
          (fun k => "seg_" ++ toString k) :=
  merge_renumbering [sampleChunk1, sampleChunk2] 1400 (by norm_num)

/-- Claim C6 (confirmed): when `merge_transcriptions` merges two or more
chunk results, every usage counter of the merged record (total, input,
output, audio, text tokens — both the top-level `usage` and the copy
embedded in `result`) is the field-wise sum over the per-chunk usage
records, and the merged `duration_seconds` is the sum of the per-chunk
processing wall-clock durations. -/
theorem merge_usage_additivity (crs : List ChunkResult) (D : ℚ)
    (h2 : 2 ≤ crs.length) :
    ∃ m, merge_transcriptions crs D = Except.ok (MergeResult.merged m) ∧
      m.usage.total_tokens = (crs.map fun c => c.usage.total_tokens).sum ∧
      m.usage.input_tokens = (crs.map fun c => c.usage.input_tokens).sum ∧
      m.usage.output_tokens = (crs.map fun c => c.usage.output_tokens).sum ∧
      m.usage.audio_tokens = (crs.map fun c => c.usage.audio_tokens).sum ∧
      m.usage.text_tokens = (crs.map fun c => c.usage.text_tokens).sum ∧
      m.result.usage = m.usage ∧
      m.duration_seconds = (crs.map fun c => c.duration_seconds).sum := by
  rcases crs with _ | ⟨c0, _ | ⟨c1, rest⟩⟩
  · simp at h2
  · simp at h2
  · exact ⟨_, rfl, rfl, rfl, rfl, rfl, rfl, rfl, rfl⟩

/-- Concrete instance of `merge_usage_additivity` on the two sample
chunks. -/
theorem merge_usage_additivity_witness :
    ∃ m, merge_transcriptions [sampleChunk1, sampleChunk2] 1400 =
        Except.ok (MergeResult.merged m) ∧
      m.usage.total_tokens =
        ([sampleChunk1, sampleChunk2].map fun c => c.usage.total_tokens).sum ∧
      m.usage.input_tokens =
        ([sampleChunk1, sampleChunk2].map fun c => c.usage.input_tokens).sum ∧
      m.usage.output_tokens =
        ([sampleChunk1, sampleChunk2].map fun c => c.usage.output_tokens).sum ∧
      m.usage.audio_tokens =
        ([sampleChunk1, sampleChunk2].map fun c => c.usage.audio_tokens).sum ∧
      m.usage.text_tokens =
        ([sampleChunk1, sampleChunk2].map fun c => c.usage.text_tokens).sum ∧
      m.result.usage = m.usage ∧
      m.duration_seconds =
        ([sampleChunk1, sampleChunk2].map fun c => c.duration_seconds).sum :=
  merge_usage_additivity [sampleChunk1, sampleChunk2] 1400 (by norm_num)

/-- Claim C7 (confirmed): merging a list containing exactly one chunk
result returns that chunk result unchanged — the fast path of
`merge_transcriptions` hands back the very record it received, so no
offset rebasing, renumbering or text concatenation occurs and original
segment identifiers survive. -/
theorem merge_single_identity (c : ChunkResult) (D : ℚ) :
    merge_transcriptions [c] D = Except.ok (MergeResult.single c) := rfl

/-- Claim C8 (confirmed): the merged copy of any segment differs from the
original in at most `start`, `end` and `id` — its `text`, `speaker` and
all remaining fields (`extra`) are unchanged — and the merge builds new
records (`segment.copy()`), leaving its inputs intact, as witnessed by
the unchanged single-chunk pass-through in the second conjunct and by the
embedding being a pure function of its inputs. -/
theorem merge_frame_preservation (crs : List ChunkResult) (D : ℚ)
    (h2 : 2 ≤ crs.length) (i j : ℕ) (ci : ChunkResult) (s : Segment)
    (hi : crs[i]? = some ci) (hj : ci.result.segments[j]? = some s)
    (c : ChunkResult) :
    (∃ m t, merge_transcriptions crs D = Except.ok (MergeResult.merged m) ∧
      m.result.segments[segPos crs i + j]? = some t ∧
      t.text = s.text ∧ t.speaker = s.speaker ∧ t.extra = s.extra) ∧
    merge_transcriptions [c] D = Except.ok (MergeResult.single c) := by
  refine ⟨?_, rfl⟩
  rcases crs with _ | ⟨c0, _ | ⟨c1, rest⟩⟩
  · simp at h2
  · simp at h2
  · have hseg : (segLists (c0 :: c1 :: rest))[i]? =
        some ci.result.segments := by
      simp only [segLists, List.getElem?_map, hi, Option.map_some']
    have H := mergeSegments_getElem? D (segLists (c0 :: c1 :: rest)) 0 0 i j
      ci.result.segments s hseg hj
    refine ⟨_, adjustSegment (0 + i * D)
      (0 + ((((segLists (c0 :: c1 :: rest)).take i).map List.length).sum) + j)
      s, rfl, ?_, ?_, ?_, ?_⟩
    · simpa [segPos] using H
    · simp [adjustSegment]
    · simp [adjustSegment]
    · simp [adjustSegment]

/-- Concrete instance of `merge_frame_preservation` on the sample
chunks. -/
theorem merge_frame_preservation_witness :
    (∃ m t, merge_transcriptions [sampleChunk1, sampleChunk2] 1400 =
        Except.ok (MergeResult.merged m) ∧
      m.result.segments[segPos [sampleChunk1, sampleChunk2] 1 + 0]? = some t ∧
      t.text = sampleSeg21.text ∧ t.speaker = sampleSeg21.speaker ∧
      t.extra = sampleSeg21.extra) ∧
    merge_transcriptions [sampleChunk1] 1400 =
      Except.ok (MergeResult.single sampleChunk1) :=
  merge_frame_preservation [sampleChunk1, sampleChunk2] 1400 (by norm_num)
    1 0 sampleChunk2 sampleSeg21 rfl rfl sampleChunk1

/-- Claim C10 (confirmed): `merge_transcriptions` requires a non-empty
input: on the empty list (reachable, since `split_audio` returns an empty
chunk-file list when every segmentation window fails) the expression
`chunk_results[0]["timestamp"]` raises `IndexError` instead of producing
an empty merged transcript, so every merge that returns a value was given
at least one chunk result. -/
theorem merge_empty_index_error :
    (∀ D : ℚ, merge_transcriptions [] D = Except.error "IndexError") ∧
    (∀ (crs : List ChunkResult) (D : ℚ) (r : MergeResult),
      merge_transcriptions crs D = Except.ok r → crs ≠ []) ∧
    (split_audio (fun _ => false) "d.mp3" "d" 3000 1400).1 = [] := by
  refine ⟨fun D => rfl, ?_, ?_⟩
  · intro crs D r h hnil
    subst hnil
    simp [merge_transcriptions] at h
  · unfold split_audio
    rw [if_neg (by norm_num [MAX_DURATION_SECONDS])]
    simp

/-- Concrete instance of the second conjunct of
`merge_empty_index_error`: a successful merge had a non-empty input. -/
theorem merge_empty_index_error_witness :
    ([sampleChunk1] : List ChunkResult) ≠ [] :=
  merge_empty_index_error.2.1 [sampleChunk1] 1400
    (MergeResult.single sampleChunk1) rfl

/-- Claim C9 (confirmed): `main` of `process_depositions.py` exits 0
exactly when the prerequisites are present, the scan succeeded and at
least one file's row is a success — even when other files failed — and
exits 1 when every row failed (or there were none), when the scan raised,
or when `ffmpeg`/`ffprobe` is missing. -/
theorem main_exit_codes (files : List (Except String Unit)) (e : String) :
    ((∃ f ∈ files, fileRow f = true) →
      mainExitCode true true (Except.ok files) = 0) ∧
    ((∀ f ∈ files, fileRow f = false) →
      mainExitCode true true (Except.ok files) = 1) ∧
    mainExitCode true true (Except.error e) = 1 ∧
    (∀ (fb : Bool) (scan : Except String (List (Except String Unit))),
      mainExitCode false fb scan = 1) ∧
    (∀ (fa : Bool) (scan : Except String (List (Except String Unit))),
      mainExitCode fa false scan = 1) := by
  refine ⟨?_, ?_, rfl, ?_, ?_⟩
  · rintro ⟨f, hf, hrow⟩
    have hany : (files.map fileRow).any (fun b => b) = true := by
      rw [List.any_eq_true]
      exact ⟨fileRow f, List.mem_map_of_mem fileRow hf, hrow⟩
    simp [mainExitCode, process_all_depositions, hany]
  · intro hall
    have hany : (files.map fileRow).any (fun b => b) = false := by
      rw [List.any_eq_false]
      intro b hb
      rcases List.mem_map.mp hb with ⟨g, hg, rfl⟩
      simp [hall g hg]
    simp [mainExitCode, process_all_depositions, hany]
  · intro fb scan
    simp [mainExitCode]
  · intro fa scan
    cases fa <;> simp [mainExitCode]

/-- Concrete instance of `main_exit_codes`: one failed file plus one
successful file still exits 0. -/
theorem main_exit_codes_witness :
    mainExitCode true true
      (Except.ok [Except.error "boom", Except.ok ()]) = 0 :=
  (main_exit_codes [Except.error "boom", Except.ok ()] "x").1
    ⟨Except.ok (), by simp, rfl⟩

end Depositions
